import Mathlib

/-!
Verification of the ACP adapter pipeline (happy repository).

This file gives a shallow embedding of the parts of the code base that the
frozen claims talk about:

* `sessionConfigMetadata` (the config-metadata projection
  `mergeAcpSessionConfigIntoMetadata` and its helpers), translated from
  the TypeScript source;
* the `withRetry` helper and the startup error classification of
  `AcpBackend.startSession`;
* the `requestPermission` client handler of `AcpBackend.startSession`;
* the session update handlers `handleAgentMessageChunk`, `handleToolCall`
  and `startToolCall` from `sessionUpdateHandlers.ts`;
* the `AcpSessionManager` turn mapper (modelled from the spec, the
  implementation file is not part of the sources).

JavaScript optional / nullable fields are modelled with `Option`; a
description field that can be `string | null | undefined` is modelled with
`Option (Option String)` (outer `none` = absent, inner `none` = null).
-/

namespace Happy

/-- Description field of an option: `string | null | undefined` in the
source is modelled as `Option (Option String)`; the outer layer records
presence (undefined vs present), the inner layer records null vs string. -/
abbrev DescField := Option (Option String)

/-- JavaScript truthiness of an optional string: `undefined`, `null` and
the empty string are falsy. -/
def jsTruthy : Option String → Bool
  | none => false
  | some s => s ≠ ""

/-- MetadataOption shape `{code, value, description?}` produced by
`flattenConfigSelectOptions` and the legacy mappers in
`sessionConfigMetadata.ts`. -/
structure MetadataOption where
  code : String
  value : String
  description : DescField := none
  deriving DecidableEq, Repr

/-- An option value `{value, name, description?}` as recognized by
`isOptionValue` in `sessionConfigMetadata.ts`. -/
structure ConfigOptionValue where
  value : String
  name : String
  description : DescField := none
  deriving DecidableEq, Repr

/-- An item inside a grouped entry: either an option value (passes
`isOptionValue`) or anything else (skipped by the flattener). -/
inductive ConfigEntryItem where
  | val (v : ConfigOptionValue)
  | other
  deriving DecidableEq, Repr

/-- A top-level entry of a select option in the source: entries that pass
`isOptionValue` contribute themselves, entries that pass `isOptionGroup`
contribute their value items, anything else is skipped.  The source checks
`isOptionValue` before `isOptionGroup`, so an entry satisfying both behaves
as a value; the constructors reflect that classification. -/
inductive ConfigOptionEntry where
  | val (v : ConfigOptionValue)
  | group (options : List ConfigEntryItem)
  | other
  deriving DecidableEq, Repr

/-- A session config option `{type, category, currentValue, options}` from
the ACP SDK, as consumed by `sessionConfigMetadata.ts`.  `category` can be
a non-string in the wire payload, modelled by `none`. -/
structure SessionConfigOption where
  type : String
  category : Option String := none
  currentValue : String
  options : List ConfigOptionEntry := []
  deriving DecidableEq, Repr

/-- Translation of `flattenConfigSelectOptions` for a single entry. -/
def flattenOne : ConfigOptionEntry → List MetadataOption
  | .val v => [⟨v.value, v.name, v.description⟩]
  | .group opts => opts.filterMap fun it =>
      match it with
      | .val v => some ⟨v.value, v.name, v.description⟩
      | .other => none
  | .other => []

/-- Translation of `flattenConfigSelectOptions` from
`sessionConfigMetadata.ts`: each value entry contributes itself, each group
contributes its value items, in order. -/
def flattenConfigSelectOptions (options : List ConfigOptionEntry) : List MetadataOption :=
  (options.map flattenOne).flatten

/-- SUPPORTED_CATEGORIES from `sessionConfigMetadata.ts`. -/
def supportedCategories : List String := ["mode", "model", "thought_level"]

/-- The filter applied to `snapshot.configOptions` in
`mergeAcpSessionConfigIntoMetadata`: keep select options whose category is
a string in the supported set. -/
def isSupportedSelect (o : SessionConfigOption) : Bool :=
  o.type == "select" &&
    (match o.category with
     | some c => supportedCategories.contains c
     | none => false)

/-- Translation of `findConfigOptionByCategory`: first select option of the
given category. -/
def findConfigOptionByCategory (configOptions : List SessionConfigOption)
    (category : String) : Option SessionConfigOption :=
  configOptions.find? fun o => o.type == "select" && o.category == some category

/-- The supported categories as a closed enumeration, used by
`applyConfigCategory`. -/
inductive SupportedCategory where
  | mode
  | model
  | thought_level
  deriving DecidableEq, Repr

/-- Canonical metadata record.  The six projection fields written by the
merge are explicit; the remaining fields of the TypeScript `Metadata` type
are represented by the named base fields used in the repository tests plus
an association list `extra` for everything else (the merge copies them
verbatim via the object spread). -/
structure Metadata where
  path : String := ""
  host : String := ""
  homeDir : String := ""
  happyHomeDir : String := ""
  happyLibDir : String := ""
  happyToolsDir : String := ""
  models : Option (List MetadataOption) := none
  currentModelCode : Option String := none
  operatingModes : Option (List MetadataOption) := none
  currentOperatingModeCode : Option String := none
  thoughtLevels : Option (List MetadataOption) := none
  currentThoughtLevelCode : Option String := none
  extra : List (String × String) := []
  deriving DecidableEq, Repr

/-- Translation of `applyConfigCategory` from `sessionConfigMetadata.ts`:
without an option the category fields are deleted (set to `none`), with an
option they are set to the flattened values and the current value. -/
def applyConfigCategory (metadata : Metadata) (option : Option SessionConfigOption)
    (kind : SupportedCategory) : Metadata :=
  match option with
  | none =>
    match kind with
    | .model => { metadata with models := none, currentModelCode := none }
    | .mode => { metadata with operatingModes := none, currentOperatingModeCode := none }
    | .thought_level => { metadata with thoughtLevels := none, currentThoughtLevelCode := none }
  | some opt =>
    let values := flattenConfigSelectOptions opt.options
    let currentCode := opt.currentValue
    match kind with
    | .model => { metadata with models := some values, currentModelCode := some currentCode }
    | .mode => { metadata with operatingModes := some values, currentOperatingModeCode := some currentCode }
    | .thought_level => { metadata with thoughtLevels := some values, currentThoughtLevelCode := some currentCode }

/-- Legacy mode entry `{id, name, description?}` of `SessionModeState`. -/
structure SessionMode where
  id : String
  name : String
  description : DescField := none
  deriving DecidableEq, Repr

/-- Legacy `SessionModeState` `{availableModes, currentModeId}`. -/
structure SessionModeState where
  availableModes : List SessionMode
  currentModeId : String
  deriving DecidableEq, Repr

/-- Legacy model entry `{modelId, name, description?}` of
`SessionModelState`. -/
structure SessionModel where
  modelId : String
  name : String
  description : DescField := none
  deriving DecidableEq, Repr

/-- Legacy `SessionModelState` `{availableModels, currentModelId}`. -/
structure SessionModelState where
  availableModels : List SessionModel
  currentModelId : String
  deriving DecidableEq, Repr

/-- AcpSessionConfigSnapshot from `sessionConfigMetadata.ts`.  Each field
is optional; `configOptions = none` covers both `undefined` and `null`
(the source guards with `Array.isArray`), similarly `modes`/`models` are
guarded by truthiness and `currentModeId` by string truthiness. -/
structure AcpSessionConfigSnapshot where
  configOptions : Option (List SessionConfigOption) := none
  modes : Option SessionModeState := none
  models : Option SessionModelState := none
  currentModeId : Option String := none
  deriving DecidableEq, Repr

/-- Translation of `mergeAcpSessionConfigIntoMetadata` from
`sessionConfigMetadata.ts`.  Order of operations follows the source: apply
the three config-option categories (when `configOptions` is an array),
then the legacy model and mode fallbacks, then the bare `currentModeId`
override. -/
def mergeAcpSessionConfigIntoMetadata (metadata : Metadata)
    (snapshot : AcpSessionConfigSnapshot) : Metadata :=
  let cfg :=
    match snapshot.configOptions with
    | some configOptions =>
      let filtered := configOptions.filter isSupportedSelect
      let modeOption := findConfigOptionByCategory filtered "mode"
      let modelOption := findConfigOptionByCategory filtered "model"
      let thoughtLevelOption := findConfigOptionByCategory filtered "thought_level"
      let m1 := applyConfigCategory metadata modeOption .mode
      let m2 := applyConfigCategory m1 modelOption .model
      let m3 := applyConfigCategory m2 thoughtLevelOption .thought_level
      (m3, modeOption.isSome, modelOption.isSome)
    | none => (metadata, false, false)
  let next := cfg.1
  let hasModeFromConfig := cfg.2.1
  let hasModelFromConfig := cfg.2.2
  let next :=
    match snapshot.models with
    | some ms =>
      if hasModelFromConfig then next
      else { next with
        models := some (ms.availableModels.map fun m => ⟨m.modelId, m.name, m.description⟩),
        currentModelCode := some ms.currentModelId }
    | none => next
  let next :=
    match snapshot.modes with
    | some ms =>
      if hasModeFromConfig then next
      else { next with
        operatingModes := some (ms.availableModes.map fun m => ⟨m.id, m.name, m.description⟩),
        currentOperatingModeCode := some ms.currentModeId }
    | none => next
  match snapshot.currentModeId with
  | some s => if s == "" then next else { next with currentOperatingModeCode := some s }
  | none => next

/-! Characterization of the merge.  Each of the six projection fields of
the result is either written with a value computed from the snapshot alone
(`some w`) or left untouched (`none`).  The `...Write` functions below are
proof devices (they are verified against the translated source by
`merge_char`), not part of the source. -/

/-- Value written to `operatingModes` by the merge, if any. -/
def operatingModesWrite (s : AcpSessionConfigSnapshot) :
    Option (Option (List MetadataOption)) :=
  match s.configOptions with
  | some cos =>
    match findConfigOptionByCategory (cos.filter isSupportedSelect) "mode" with
    | some opt => some (some (flattenConfigSelectOptions opt.options))
    | none =>
      match s.modes with
      | some ms => some (some (ms.availableModes.map fun mo => ⟨mo.id, mo.name, mo.description⟩))
      | none => some none
  | none =>
    match s.modes with
    | some ms => some (some (ms.availableModes.map fun mo => ⟨mo.id, mo.name, mo.description⟩))
    | none => none

/-- Value written to `currentOperatingModeCode` by the merge, if any. -/
def currentOperatingModeCodeWrite (s : AcpSessionConfigSnapshot) :
    Option (Option String) :=
  let base : Option (Option String) :=
    match s.configOptions with
    | some cos =>
      match findConfigOptionByCategory (cos.filter isSupportedSelect) "mode" with
      | some opt => some (some opt.currentValue)
      | none =>
        match s.modes with
        | some ms => some (some ms.currentModeId)
        | none => some none
    | none =>
      match s.modes with
      | some ms => some (some ms.currentModeId)
      | none => none
  match s.currentModeId with
  | some v => if v == "" then base else some (some v)
  | none => base

/-- Value written to `models` by the merge, if any. -/
def modelsWrite (s : AcpSessionConfigSnapshot) :
    Option (Option (List MetadataOption)) :=
  match s.configOptions with
  | some cos =>
    match findConfigOptionByCategory (cos.filter isSupportedSelect) "model" with
    | some opt => some (some (flattenConfigSelectOptions opt.options))
    | none =>
      match s.models with
      | some ms => some (some (ms.availableModels.map fun mo => ⟨mo.modelId, mo.name, mo.description⟩))
      | none => some none
  | none =>
    match s.models with
    | some ms => some (some (ms.availableModels.map fun mo => ⟨mo.modelId, mo.name, mo.description⟩))
    | none => none

/-- Value written to `currentModelCode` by the merge, if any. -/
def currentModelCodeWrite (s : AcpSessionConfigSnapshot) :
    Option (Option String) :=
  match s.configOptions with
  | some cos =>
    match findConfigOptionByCategory (cos.filter isSupportedSelect) "model" with
    | some opt => some (some opt.currentValue)
    | none =>
      match s.models with
      | some ms => some (some ms.currentModelId)
      | none => some none
  | none =>
    match s.models with
    | some ms => some (some ms.currentModelId)
    | none => none

/-- Value written to `thoughtLevels` by the merge, if any. -/
def thoughtLevelsWrite (s : AcpSessionConfigSnapshot) :
    Option (Option (List MetadataOption)) :=
  match s.configOptions with
  | some cos =>
    match findConfigOptionByCategory (cos.filter isSupportedSelect) "thought_level" with
    | some opt => some (some (flattenConfigSelectOptions opt.options))
    | none => some none
  | none => none

/-- Value written to `currentThoughtLevelCode` by the merge, if any. -/
def currentThoughtLevelCodeWrite (s : AcpSessionConfigSnapshot) :
    Option (Option String) :=
  match s.configOptions with
  | some cos =>
    match findConfigOptionByCategory (cos.filter isSupportedSelect) "thought_level" with
    | some opt => some (some opt.currentValue)
    | none => some none
  | none => none

/-- Concrete snapshot refuting C2 as stated: a mode selector with current
value code, a legacy modes state, and a bare currentModeId ask. -/
def cexC2ModeSel : SessionConfigOption :=
  { type := "select", category := some "mode", currentValue := "code",
    options := [.val ⟨"code", "Code", none⟩] }

/-- Snapshot for the C2 counterexample. -/
def cexC2Snap : AcpSessionConfigSnapshot :=
  { configOptions := some [cexC2ModeSel],
    modes := some { availableModes := [⟨"ask", "Ask", none⟩], currentModeId := "ask" },
    currentModeId := some "ask" }

/-- Mode selector of the C2 witness snapshot. -/
def witC2ModeSel : SessionConfigOption :=
  { type := "select", category := some "mode", currentValue := "code",
    options := [.val ⟨"code", "Code", none⟩] }

/-- Model selector of the C2 witness snapshot. -/
def witC2ModelSel : SessionConfigOption :=
  { type := "select", category := some "model", currentValue := "new-model",
    options := [.val ⟨"new-model", "New Model", none⟩] }

/-- Concrete snapshot exercising both branches of the amended C2. -/
def witC2Snap : AcpSessionConfigSnapshot :=
  { configOptions := some [witC2ModeSel, witC2ModelSel],
    modes := some { availableModes := [⟨"ask", "Ask", none⟩], currentModeId := "ask" },
    models := some { availableModels := [⟨"legacy-model", "Legacy Model", none⟩],
                     currentModelId := "legacy-model" } }

/-- Metadata whose model fields are populated, used to refute C4 as
stated. -/
def cexC4Metadata : Metadata :=
  { models := some [⟨"m1", "Model 1", none⟩], currentModelCode := some "m1" }

/-! Embedding of AcpBackend.ts: retry configuration, the withRetry helper,
startup error classification, the startSession failure path, and the
requestPermission client handler. -/

/-- RETRY_CONFIG.maxAttempts from AcpBackend.ts. -/
def RETRY_CONFIG_maxAttempts : Nat := 3

/-- RETRY_CONFIG.baseDelayMs from AcpBackend.ts. -/
def RETRY_CONFIG_baseDelayMs : Nat := 1000

/-- RETRY_CONFIG.maxDelayMs from AcpBackend.ts. -/
def RETRY_CONFIG_maxDelayMs : Nat := 5000

/-- A JavaScript error as observed by startSession: an optional errno-style
code, a message, and whether this object is (reference-equal to) the error
signaled out-of-band by the child process error and exit handlers
(startupFailure in the source). -/
structure AcpError where
  code : Option String := none
  message : String := ""
  isStartupFailure : Bool := false
  deriving DecidableEq, Repr

/-- Translation of isNonRetryableStartupError from AcpBackend.startSession:
true for the out-of-band startup failure object and for the errno codes
ENOENT, EACCES and EPIPE. -/
def isNonRetryableStartupError (e : AcpError) : Bool :=
  e.isStartupFailure || e.code == some "ENOENT" || e.code == some "EACCES"
    || e.code == some "EPIPE"

/-- Delay computed by withRetry before retrying after the given failed
attempt: baseDelayMs * 2 ^ (attempt - 1) clamped at maxDelayMs. -/
def retryDelayMs (baseDelayMs maxDelayMs attempt : Nat) : Nat :=
  min (baseDelayMs * 2 ^ (attempt - 1)) maxDelayMs

/-- Trace of one withRetry run: the final result (error none models the
throw of a null lastError when the loop body never ran), the index of the
last attempt executed, and the list of (failed attempt, delay ms) pairs
inserted before each retry, in order. -/
structure RetryTrace (ε α : Type) where
  result : Except (Option ε) α
  attemptsUsed : Nat
  delays : List (Nat × Nat)

/-- Loop of withRetry from AcpBackend.ts, as structural recursion on the
remaining fuel (maxAttempts - attempt + 1).  An attempt that succeeds
returns; a failure retries with an exponential-backoff delay while
attempt < maxAttempts and shouldRetry accepts the error, else the loop
breaks and the last error is thrown. -/
def withRetryGo {ε α : Type} (op : Nat → Except ε α) (maxAttempts baseDelayMs maxDelayMs : Nat)
    (shouldRetry : ε → Bool) : Nat → Nat → Option ε → List (Nat × Nat) → RetryTrace ε α
  | attempt, 0, lastErr, acc => ⟨.error lastErr, attempt - 1, acc.reverse⟩
  | attempt, fuel + 1, _lastErr, acc =>
    match op attempt with
    | .ok v => ⟨.ok v, attempt, acc.reverse⟩
    | .error e =>
      if decide (attempt < maxAttempts) && shouldRetry e then
        withRetryGo op maxAttempts baseDelayMs maxDelayMs shouldRetry (attempt + 1) fuel (some e)
          ((attempt, retryDelayMs baseDelayMs maxDelayMs attempt) :: acc)
      else
        ⟨.error (some e), attempt, acc.reverse⟩

/-- Translation of withRetry from AcpBackend.ts: run the loop from attempt
1 with fuel maxAttempts.  The operation is modelled as a function from the
attempt index to that attempt's outcome. -/
def withRetry {ε α : Type} (op : Nat → Except ε α) (maxAttempts baseDelayMs maxDelayMs : Nat)
    (shouldRetry : ε → Bool) : RetryTrace ε α :=
  withRetryGo op maxAttempts baseDelayMs maxDelayMs shouldRetry 1 maxAttempts none []

/-! Agent messages and the session update handler state. -/

/-- A content object `{text?, ...}` carried by a session update; non-string
text values are modelled as an absent text field (both fail the source's
typeof check), the remaining fields are an opaque association list. -/
structure ContentObj where
  text : Option String := none
  rest : List (String × String) := []
  deriving DecidableEq, Repr

/-- Content of a session update: a string, an object, or an array. -/
inductive UpdateContent where
  | str (s : String)
  | obj (o : ContentObj)
  | arr (items : List String)
  deriving DecidableEq, Repr

/-- Result of parseArgsFromContent before the locations are attached:
an array becomes items, an object is taken as-is, anything else is the
empty record. -/
inductive ParsedArgs where
  | itemsA (items : List String)
  | objA (o : ContentObj)
  | emptyA
  deriving DecidableEq, Repr

/-- Translation of parseArgsFromContent from sessionUpdateHandlers.ts. -/
def parseArgsFromContent : Option UpdateContent → ParsedArgs
  | some (.arr items) => .itemsA items
  | some (.obj o) => .objA o
  | some (.str _) => .emptyA
  | none => .emptyA

/-- Arguments attached to a tool-call agent message: the parsed content
plus the locations array copied from the update when present. -/
structure ToolArgs where
  base : ParsedArgs
  locations : Option (List String) := none
  deriving DecidableEq, Repr

/-- Payload of a thinking event `{text?, streaming?}`. -/
structure ThinkingPayload where
  text : Option String := none
  streaming : Bool := false
  deriving DecidableEq, Repr

/-- Payload carried by an event agent message; only thinking payloads are
inspected by the embedded handlers, all other payload shapes are opaque. -/
inductive EventPayload where
  | thinkingP (p : ThinkingPayload)
  | otherP (tag : String)
  deriving DecidableEq, Repr

/-- A permission option `{optionId?, name?, kind?}` of a requestPermission
call. -/
structure PermissionOptionInfo where
  optionId : Option String := none
  name : Option String := none
  kind : Option String := none
  deriving DecidableEq, Repr

/-- Payload of the permission-request agent message emitted by the
requestPermission handler (the normalized fields the handler adds on top
of the raw params). -/
structure PermissionRequestPayload where
  permissionId : String
  toolCallId : String
  toolName : String
  input : ContentObj := {}
  options : List PermissionOptionInfo := []
  deriving DecidableEq, Repr

/-- Result value of a tool-result agent message.  The permission handler
emits `{status, decision}` records; other result contents are opaque. -/
inductive ResultV where
  | permDecision (status : String) (decision : String)
  | contentR (c : Option UpdateContent)
  deriving DecidableEq, Repr

/-- The flat agent-message stream emitted by the backend (AgentMessage in
agent/core), restricted to the fields the embedded code reads or writes. -/
inductive AgentMessage where
  | status (status : String) (detail : Option String := none)
  | modelOutput (textDelta : Option String)
  | toolCall (callId : String) (toolName : String) (args : ToolArgs)
  | toolResult (callId : String) (toolName : String) (result : ResultV)
  | event (name : String) (payload : EventPayload)
  | permissionRequest (id : String) (reason : String) (payload : PermissionRequestPayload)
  | permissionResponse (id : String) (approved : Bool)
  | tokenCount (total : Nat)
  | fsEdit
  | terminalOutput
  deriving DecidableEq, Repr

/-- DEFAULT_IDLE_TIMEOUT_MS from sessionUpdateHandlers.ts. -/
def DEFAULT_IDLE_TIMEOUT_MS : Nat := 500

/-- DEFAULT_TOOL_CALL_TIMEOUT_MS from sessionUpdateHandlers.ts. -/
def DEFAULT_TOOL_CALL_TIMEOUT_MS : Nat := 120000

/-- Transport hooks consumed by the session update handlers; all hooks are
optional, mirroring the optional methods of TransportHandler.  The
determineToolName hook of the default transport is absent. -/
structure TransportHandler where
  getIdleTimeout : Option Nat := none
  getToolCallTimeout : Option (String → Option String → Nat) := none
  isInvestigationTool : Option (String → Option String → Bool) := none
  extractToolNameFromId : Option (String → Option String) := none

/-- The session update fields read by the embedded handlers
(sessionUpdate, toolCallId, status, kind, content, locations); a kind that
is not a string is modelled as none (the source narrows with typeof). -/
structure SessionUpdate where
  sessionUpdate : Option String := none
  toolCallId : Option String := none
  status : Option String := none
  kind : Option String := none
  content : Option UpdateContent := none
  locations : Option (List String) := none
  deriving DecidableEq, Repr

/-- Handler-visible mutable state of the backend: the active tool-call
set, the start-time / timeout / name maps, the armed idle timer (as the
duration it was armed with), the log of emitted agent messages, and the
current clock value used for Date.now(). -/
structure HandlerState where
  activeToolCalls : List String := []
  toolCallStartTimes : List (String × Nat) := []
  toolCallTimeouts : List (String × Nat) := []
  toolCallIdToNameMap : List (String × String) := []
  idleTimerMs : Option Nat := none
  emitted : List AgentMessage := []
  now : Nat := 0
  deriving DecidableEq, Repr

/-- Result record `{handled, toolCallCountSincePrompt?}` returned by the
handlers. -/
structure HandlerResult where
  handled : Bool
  toolCallCountSincePrompt : Option Nat := none
  deriving DecidableEq, Repr

/-- Emit an agent message (appends to the log). -/
def emitMsg (s : HandlerState) (m : AgentMessage) : HandlerState :=
  { s with emitted := s.emitted ++ [m] }

/-- Set semantics of Set.add: insert if absent, keep order otherwise. -/
def setAdd (l : List String) (x : String) : List String :=
  if l.contains x then l else l ++ [x]

/-- Map.set semantics on an association list: replace the existing binding
or append a new one. -/
def assocSet {α : Type} : List (String × α) → String → α → List (String × α)
  | [], k, v => [(k, v)]
  | (k0, v0) :: rest, k, v =>
    if k0 == k then (k0, v) :: rest else (k0, v0) :: assocSet rest k v

/-- Map.has on an association list. -/
def assocHas {α : Type} (l : List (String × α)) (k : String) : Bool :=
  l.any fun p => p.1 == k

/-- JavaScript `a || d` for an optional string a and string default d. -/
def jsStrOr (a : Option String) (d : String) : String :=
  if jsTruthy a then a.getD "" else d

/-- Decidable test for the regular expression `^\*\*[^*]+\*\*\n` used by
handleAgentMessageChunk: the text starts with two stars, then at least one
character that is not a star, then two stars and a newline.  The character
class excludes the star, so the match position after the leading stars is
forced to the first star that follows; the scanner below is therefore
equivalent to the existence of a match. -/
def isThinkingChunk (t : String) : Bool :=
  match t.data with
  | '*' :: '*' :: rest =>
    let mid := rest.takeWhile (fun c => c ≠ '*')
    let post := rest.dropWhile (fun c => c ≠ '*')
    (!mid.isEmpty) &&
      (match post with
       | '*' :: '*' :: '\n' :: _ => true
       | _ => false)
  | _ => false

/-- Translation of handleAgentMessageChunk from sessionUpdateHandlers.ts:
a chunk whose content carries a string text either streams a thinking
event (when the text matches the bold-header regex) or emits model-output
and re-arms the idle timer with getIdleTimeout (default 500 ms). -/
def handleAgentMessageChunk (update : SessionUpdate) (tr : TransportHandler)
    (s : HandlerState) : HandlerState × HandlerResult :=
  match update.content with
  | some (.obj o) =>
    match o.text with
    | some t =>
      if isThinkingChunk t then
        (emitMsg s (.event "thinking" (.thinkingP { text := some t, streaming := true })),
         { handled := true })
      else
        let s1 := emitMsg s (.modelOutput (some t))
        let s2 := { s1 with idleTimerMs := none }
        let idleTimeoutMs := tr.getIdleTimeout.getD DEFAULT_IDLE_TIMEOUT_MS
        let s3 := { s2 with idleTimerMs := some idleTimeoutMs }
        (s3, { handled := true })
    | none => (s, { handled := false })
  | _ => (s, { handled := false })

/-- Expiry of the armed idle timer: per the callback installed by
handleAgentMessageChunk and the setIdleTimeout wrapper in AcpBackend, the
timer is disarmed and an idle status is emitted exactly when the active
tool-call set is empty at that moment. -/
def fireIdleTimer (s : HandlerState) : HandlerState :=
  match s.idleTimerMs with
  | none => s
  | some _ =>
    let s1 := { s with idleTimerMs := none }
    if s1.activeToolCalls.isEmpty then emitMsg s1 (.status "idle" none) else s1

/-- Translation of startToolCall from sessionUpdateHandlers.ts: record the
name mapping, add to the active set, record the start time, set the
per-call timeout if absent, clear the idle timer, emit a running status
and the tool-call message with parsed args and locations. -/
def startToolCall (toolCallId : String) (toolKind : Option String) (update : SessionUpdate)
    (tr : TransportHandler) (s : HandlerState) : HandlerState :=
  let startTime := s.now
  let toolKindStr := toolKind
  let extractedName : Option String :=
    match tr.extractToolNameFromId with
    | some f => f toolCallId
    | none => none
  let realToolName := (extractedName).getD (jsStrOr toolKindStr "unknown")
  let s1 := { s with toolCallIdToNameMap := assocSet s.toolCallIdToNameMap toolCallId realToolName }
  let s2 := { s1 with activeToolCalls := setAdd s1.activeToolCalls toolCallId }
  let s3 := { s2 with toolCallStartTimes := assocSet s2.toolCallStartTimes toolCallId startTime }
  let timeoutMs :=
    match tr.getToolCallTimeout with
    | some f => f toolCallId toolKindStr
    | none => DEFAULT_TOOL_CALL_TIMEOUT_MS
  let s4 :=
    if assocHas s3.toolCallTimeouts toolCallId then s3
    else { s3 with toolCallTimeouts := assocSet s3.toolCallTimeouts toolCallId timeoutMs }
  let s5 := { s4 with idleTimerMs := none }
  let s6 := emitMsg s5 (.status "running" none)
  let args : ToolArgs := { base := parseArgsFromContent update.content, locations := update.locations }
  emitMsg s6 (.toolCall toolCallId (jsStrOr toolKindStr "unknown") args)

/-- Translation of handleToolCall from sessionUpdateHandlers.ts: a missing
status is assumed in progress; a tool_call is skipped entirely when the
toolCallId is falsy or the status is truthy and neither in_progress nor
pending; an already-active id is acknowledged without action; otherwise
tracking starts. -/
def handleToolCall (update : SessionUpdate) (tr : TransportHandler) (s : HandlerState) :
    HandlerState × HandlerResult :=
  let toolCallId := update.toolCallId
  let status := update.status
  let isInProgress :=
    !jsTruthy status || status == some "in_progress" || status == some "pending"
  if !jsTruthy toolCallId || !isInProgress then
    (s, { handled := false })
  else
    let id := toolCallId.getD ""
    if s.activeToolCalls.contains id then
      (s, { handled := true })
    else
      (startToolCall id update.kind update tr s, { handled := true })

/-! The requestPermission client handler of AcpBackend.startSession. -/

/-- Substring test on character lists, used for the JavaScript
String.includes calls of the permission handler. -/
def containsSubstr : List Char → List Char → Bool
  | [], sub => sub.isEmpty
  | c :: rest, sub => sub.isPrefixOf (c :: rest) || containsSubstr rest sub

/-- Lower-cased character list of a string (ASCII case folding, which
covers the needles once, always and cancel the handler searches for). -/
def lowerData (s : String) : List Char :=
  s.data.map Char.toLower

/-- JavaScript `name?.toLowerCase().includes(needle)` on an optional name:
false when the name is absent. -/
def nameIncludes (name : Option String) (needle : String) : Bool :=
  match name with
  | some n => containsSubstr (lowerData n) needle.data
  | none => false

/-- Predicate of the proceed-once option search in the permission handler:
optionId is proceed_once or the lowercased name contains "once". -/
def isProceedOnceOpt (o : PermissionOptionInfo) : Bool :=
  o.optionId == some "proceed_once" || nameIncludes o.name "once"

/-- Predicate of the proceed-always option search: optionId is
proceed_always or the lowercased name contains "always". -/
def isProceedAlwaysOpt (o : PermissionOptionInfo) : Bool :=
  o.optionId == some "proceed_always" || nameIncludes o.name "always"

/-- Predicate of the cancel option search: optionId is cancel or the
lowercased name contains "cancel". -/
def isCancelOpt (o : PermissionOptionInfo) : Bool :=
  o.optionId == some "cancel" || nameIncludes o.name "cancel"

/-- The decision values a permission handler can return. -/
inductive PermissionDecision where
  | approved
  | approved_for_session
  | denied
  | abort
  deriving DecidableEq, Repr

/-- String form of a decision, as embedded in the synthetic tool-result. -/
def decisionStr : PermissionDecision → String
  | .approved => "approved"
  | .approved_for_session => "approved_for_session"
  | .denied => "denied"
  | .abort => "abort"

/-- The toolCall field of a requestPermission call, with the alternative
field names the handler probes for the input. -/
structure PermissionToolCallInfo where
  id : Option String := none
  kind : Option String := none
  toolName : Option String := none
  input : Option ContentObj := none
  arguments : Option ContentObj := none
  content : Option ContentObj := none
  deriving DecidableEq, Repr

/-- Parameters of an inbound requestPermission RPC as read by the
handler. -/
structure RequestPermissionParams where
  toolCall : Option PermissionToolCallInfo := none
  kind : Option String := none
  input : Option ContentObj := none
  arguments : Option ContentObj := none
  content : Option ContentObj := none
  options : List PermissionOptionInfo := []
  deriving DecidableEq, Repr

/-- Outcome of serving one requestPermission call: the agent messages
emitted, in order, and the optionId of the RPC reply (the reply shape is
always `{outcome: {outcome: selected, optionId}}` on every return path of
the source). -/
structure RequestPermissionOutcome where
  emitted : List AgentMessage
  optionId : String
  deriving DecidableEq, Repr

/-- Tool name derivation of the handler:
`toolCall?.kind || toolCall?.toolName || params.kind || "Unknown tool"`
(the determineToolName transport hook is absent on the default
transport). -/
def permToolName (params : RequestPermissionParams) : String :=
  jsStrOr (params.toolCall.bind (fun tc => tc.kind))
    (jsStrOr (params.toolCall.bind (fun tc => tc.toolName))
      (jsStrOr params.kind "Unknown tool"))

/-- Tool call id derivation: `toolCall?.id || randomUUID()`, the fresh
uuid being passed in as freshId. -/
def permToolCallId (params : RequestPermissionParams) (freshId : String) : String :=
  jsStrOr (params.toolCall.bind (fun tc => tc.id)) freshId

/-- Input extraction: the first present of input/arguments/content on the
toolCall when it exists, else on the params, else the empty object
(JavaScript objects are truthy, so presence is truthiness here). -/
def permInput (params : RequestPermissionParams) : ContentObj :=
  match params.toolCall with
  | some tc => (tc.input <|> tc.arguments <|> tc.content).getD {}
  | none => (params.input <|> params.arguments <|> params.content).getD {}

/-- Translation of the requestPermission client handler from
AcpBackend.startSession.  The configured permission handler is modelled by
its observed behaviour: none (no handler), a returned decision, or a
thrown error.  Log calls and the toolCallCountSincePrompt increment are
omitted; everything that reaches the stream or the RPC reply is kept. -/
def requestPermission (params : RequestPermissionParams) (freshId : String)
    (handler : Option (Except Unit PermissionDecision)) : RequestPermissionOutcome :=
  let toolName := permToolName params
  let toolCallId := permToolCallId params freshId
  let permissionId := toolCallId
  let input := permInput params
  let options := params.options
  let reqMsg : AgentMessage := .permissionRequest permissionId toolName
    { permissionId := permissionId, toolCallId := toolCallId, toolName := toolName,
      input := input, options := options }
  match handler with
  | some (.ok d) =>
    match d with
    | .approved | .approved_for_session =>
      let proceedOnceOption := options.find? isProceedOnceOpt
      let proceedAlwaysOption := options.find? isProceedAlwaysOpt
      let optionId :=
        match d, proceedAlwaysOption with
        | .approved_for_session, some aOpt => jsStrOr aOpt.optionId "proceed_always"
        | _, _ =>
          match proceedOnceOption with
          | some oOpt => jsStrOr oOpt.optionId "proceed_once"
          | none =>
            match options with
            | o0 :: _ => jsStrOr o0.optionId "proceed_once"
            | [] => "cancel"
      ⟨[reqMsg, .toolResult permissionId toolName (.permDecision "approved" (decisionStr d))],
       optionId⟩
    | .denied | .abort =>
      let cancelOption := options.find? isCancelOpt
      let optionId :=
        match cancelOption with
        | some cOpt => jsStrOr cOpt.optionId "cancel"
        | none => "cancel"
      ⟨[reqMsg, .toolResult permissionId toolName (.permDecision "denied" (decisionStr d))],
       optionId⟩
  | some (.error _) => ⟨[reqMsg], "cancel"⟩
  | none =>
    let proceedOnceOption := options.find? isProceedOnceOpt
    let fallback :=
      match options with
      | o0 :: _ => if jsTruthy o0.optionId then o0.optionId.getD "" else "proceed_once"
      | [] => "proceed_once"
    let defaultOptionId :=
      match proceedOnceOption with
      | some oOpt => if jsTruthy oOpt.optionId then oOpt.optionId.getD "" else fallback
      | none => fallback
    ⟨[reqMsg], defaultOptionId⟩

/-! The startSession failure path. -/

/-- Messages emitted by the child process error event handler of
startSession (which also sets the startupStatusErrorEmitted flag). -/
def processErrorEventEmits (e : AcpError) : List AgentMessage :=
  [.status "error" (some e.message)]

/-- Translation of the catch block of startSession: emit a status error
carrying the error detail unless the process error handler already did,
then rethrow the error. -/
def startSessionCatch (startupStatusErrorEmitted : Bool) (e : AcpError) :
    List AgentMessage × Except AcpError Unit :=
  ((if startupStatusErrorEmitted then [] else [.status "error" (some e.message)]), .error e)

/-- All status-error emissions of a failed startSession: the process error
event when the failure surfaced out-of-band, followed by the catch block,
whose guard flag records whether that event fired. -/
def startSessionFailureEmits (viaProcessErrorEvent : Bool) (e : AcpError) : List AgentMessage :=
  (if viaProcessErrorEvent then processErrorEventEmits e else [])
    ++ (startSessionCatch viaProcessErrorEvent e).1

/-- Operation that always fails, used by the C6 witness. -/
def alwaysFailOp : Nat → Except Unit Unit := fun _ => .error ()

/-- An ENOENT spawn failure, used by the C7 witness. -/
def cexEnoent : AcpError := { code := some "ENOENT", message := "spawn gemini ENOENT" }

/-- Update carrying a plain text chunk, used by the C8 witness. -/
def witC8Update : SessionUpdate :=
  { sessionUpdate := some "agent_message_chunk",
    content := some (.obj { text := some "hello" }) }

/-- C9 counterexample input: a tool_call whose status field is present but
is the empty string. -/
def cexC9Update : SessionUpdate :=
  { sessionUpdate := some "tool_call", toolCallId := some "t1",
    status := some "", kind := some "Bash" }

/-- C5 counterexample params: the options include one with optionId
proceed_always, but an earlier option's name contains "always". -/
def cexC5Params : RequestPermissionParams :=
  { toolCall := some { id := some "t1", kind := some "Bash" },
    options := [
      { optionId := some "allow_always", name := some "Always Allow" },
      { optionId := some "proceed_always", name := some "Proceed Always" }] }

/-- C5 witness params: the spec scenario options proceed_once,
proceed_always, cancel for a Bash toolCall t1. -/
def witC5Params : RequestPermissionParams :=
  { toolCall := some { id := some "t1", kind := some "Bash" },
    options := [
      { optionId := some "proceed_once", name := some "Allow once" },
      { optionId := some "proceed_always", name := some "Allow always" },
      { optionId := some "cancel", name := some "Cancel" }] }

/-! Modelled from the spec: the AcpSessionManager (turn mapper) of
section 4.6.  The implementation file AcpSessionManager.ts is not part of
the sources (only its test suite is), so the state and the three entry
points startTurn / endTurn / mapMessage are modelled from the
specification text.  Opaque cuid2 identifiers are modelled by a fresh-id
counter; the envelope time is ++timeCounter clamped above the wall clock
(performance.now() is modelled by an arbitrary `now` argument supplied at
each call). -/

/-- Turn-end status values. -/
inductive TurnStatus where
  | completed
  | failed
  | cancelled
  deriving DecidableEq, Repr

/-- Envelope event variants of the session protocol (spec section 3). -/
inductive Ev where
  | turnStart
  | turnEnd (status : TurnStatus)
  | text (text : String) (thinking : Bool)
  | toolCallStart (call : Nat) (name title description : String) (args : ToolArgs)
  | toolCallEnd (call : Nat)
  deriving DecidableEq, Repr

/-- A session envelope: fresh id, strictly increasing time, optional turn
id, and the event. -/
structure Envelope where
  id : Nat
  time : Nat
  turn : Option Nat
  ev : Ev
  deriving DecidableEq, Repr

/-- Modelled from the spec: the state of the session manager (section
4.6): current turn id, pending text and thinking buffers, the external to
internal call-id map, the monotonic time counter, and the fresh-id
source standing in for cuid2 generation. -/
structure AcpSessionManager where
  currentTurnId : Option Nat := none
  pendingText : String := ""
  pendingThinking : String := ""
  callIdMap : List (String × Nat) := []
  timeCounter : Nat := 0
  nextFreshId : Nat := 0
  deriving DecidableEq, Repr

/-- Modelled from the spec: emit one envelope; its time is ++timeCounter
clamped above the clock reading, which keeps times strictly increasing
while preserving wall-clock ordering. -/
def emitEnvelope (s : AcpSessionManager) (turn : Option Nat) (ev : Ev) (now : Nat) :
    AcpSessionManager × Envelope :=
  let time := max (s.timeCounter + 1) now
  ({ s with timeCounter := time, nextFreshId := s.nextFreshId + 1 },
   { id := s.nextFreshId, time := time, turn := turn, ev := ev })

/-- Draw a fresh opaque id (stands in for cuid2 createId). -/
def takeFreshId (s : AcpSessionManager) : AcpSessionManager × Nat :=
  ({ s with nextFreshId := s.nextFreshId + 1 }, s.nextFreshId)

/-- Modelled from the spec: flush the pending text buffer as one text
envelope when non-empty. -/
def flushPendingText (s : AcpSessionManager) (now : Nat) :
    AcpSessionManager × List Envelope :=
  if s.pendingText = "" then (s, [])
  else
    let r := emitEnvelope { s with pendingText := "" } s.currentTurnId
      (.text s.pendingText false) now
    (r.1, [r.2])

/-- Modelled from the spec: flush the pending thinking buffer as one
thinking text envelope when non-empty. -/
def flushPendingThinking (s : AcpSessionManager) (now : Nat) :
    AcpSessionManager × List Envelope :=
  if s.pendingThinking = "" then (s, [])
  else
    let r := emitEnvelope { s with pendingThinking := "" } s.currentTurnId
      (.text s.pendingThinking true) now
    (r.1, [r.2])

/-- Modelled from the spec: flush pending text and thinking, in that
order (neither emitted when its buffer is empty). -/
def flushPendings (s : AcpSessionManager) (now : Nat) :
    AcpSessionManager × List Envelope :=
  let f1 := flushPendingText s now
  let f2 := flushPendingThinking f1.1 now
  (f2.1, f1.2 ++ f2.2)

/-- Modelled from the spec: startTurn allocates a fresh turn id and emits
one turn-start envelope when no turn is active; a repeated startTurn is a
no-op. -/
def startTurn (s : AcpSessionManager) (now : Nat) : AcpSessionManager × List Envelope :=
  match s.currentTurnId with
  | some _ => (s, [])
  | none =>
    let f := takeFreshId s
    let s2 := { f.1 with currentTurnId := some f.2 }
    let r := emitEnvelope s2 (some f.2) .turnStart now
    (r.1, [r.2])

/-- Modelled from the spec: endTurn flushes pending text and thinking,
then emits turn-end bound to the current turn and clears it; with no
active turn only the flush happens (late output is never dropped). -/
def endTurn (s : AcpSessionManager) (status : TurnStatus) (now : Nat) :
    AcpSessionManager × List Envelope :=
  let f := flushPendings s now
  match f.1.currentTurnId with
  | some turnId =>
    let r := emitEnvelope f.1 (some turnId) (.turnEnd status) now
    ({ r.1 with currentTurnId := none }, f.2 ++ [r.2])
  | none => f

/-- Modelled from the spec: mapMessage (section 4.6).  Status and the
non-session message kinds are ignored; model-output and streaming
thinking accumulate into their buffers, flushing the opposite buffer
first; non-streaming thinking flushes both buffers then emits one
thinking text; tool-call flushes the buffers, allocates a mapped call id
and emits tool-call-start; tool-result emits tool-call-end with the
mapped (or a fresh) call id without flushing. -/
def mapMessage (s : AcpSessionManager) (msg : AgentMessage) (now : Nat) :
    AcpSessionManager × List Envelope :=
  match msg with
  | .status _ _ => (s, [])
  | .permissionRequest _ _ _ => (s, [])
  | .permissionResponse _ _ => (s, [])
  | .tokenCount _ => (s, [])
  | .fsEdit => (s, [])
  | .terminalOutput => (s, [])
  | .modelOutput textDelta =>
    match textDelta with
    | some t =>
      if t = "" then (s, [])
      else
        let f := if s.pendingThinking ≠ "" then flushPendingThinking s now else (s, [])
        ({ f.1 with pendingText := f.1.pendingText ++ t }, f.2)
    | none => (s, [])
  | .event name payload =>
    match name, payload with
    | "thinking", .thinkingP p =>
      match p.text with
      | some t =>
        if t = "" then (s, [])
        else if p.streaming then
          let f := if s.pendingText ≠ "" then flushPendingText s now else (s, [])
          ({ f.1 with pendingThinking := f.1.pendingThinking ++ t }, f.2)
        else
          let f := flushPendings s now
          let r := emitEnvelope f.1 f.1.currentTurnId (.text t true) now
          (r.1, f.2 ++ [r.2])
      | none => (s, [])
    | _, _ => (s, [])
  | .toolCall callId toolName args =>
    let f := flushPendings s now
    let g := takeFreshId f.1
    let s3 := { g.1 with callIdMap := assocSet g.1.callIdMap callId g.2 }
    let r := emitEnvelope s3 s3.currentTurnId
      (.toolCallStart g.2 toolName toolName toolName args) now
    (r.1, f.2 ++ [r.2])
  | .toolResult callId _ _ =>
    match s.callIdMap.lookup callId with
    | some ourCallId =>
      let r := emitEnvelope s s.currentTurnId (.toolCallEnd ourCallId) now
      (r.1, [r.2])
    | none =>
      let g := takeFreshId s
      let r := emitEnvelope g.1 g.1.currentTurnId (.toolCallEnd g.2) now
      (r.1, [r.2])

/-- One external call to the session manager, with the clock reading at
that call. -/
inductive SMOp where
  | startOp (now : Nat)
  | endOp (status : TurnStatus) (now : Nat)
  | mapOp (msg : AgentMessage) (now : Nat)

/-- Apply one call. -/
def applyOp (s : AcpSessionManager) : SMOp → AcpSessionManager × List Envelope
  | .startOp now => startTurn s now
  | .endOp status now => endTurn s status now
  | .mapOp msg now => mapMessage s msg now

/-- Run a sequence of calls, collecting every emitted envelope in
emission order. -/
def runOps (s : AcpSessionManager) : List SMOp → AcpSessionManager × List Envelope
  | [] => (s, [])
  | op :: rest =>
    let a := applyOp s op
    let b := runOps a.1 rest
    (b.1, a.2 ++ b.2)

/-- Segment invariant of an emission step from state s to state t with
output es: the time counter does not decrease, the emitted times are
strictly increasing, and every emitted time lies strictly above the old
counter and at most at the new counter. -/
def EmitSeg (s t : AcpSessionManager) (es : List Envelope) : Prop :=
  s.timeCounter ≤ t.timeCounter ∧
  List.Pairwise (fun a b => a.time < b.time) es ∧
  ∀ e ∈ es, s.timeCounter < e.time ∧ e.time ≤ t.timeCounter

/-- Sanity check mirroring the repository test: a mode selector in
configOptions is projected into operatingModes / currentOperatingModeCode. -/
example :
    (mergeAcpSessionConfigIntoMetadata {} {
      configOptions := some [
        { type := "select", category := some "mode", currentValue := "code",
          options := [.val ⟨"ask", "Ask", none⟩, .val ⟨"code", "Code", none⟩] }]
    }).currentOperatingModeCode = some "code" := by decide

/-- Sanity check mirroring the repository test: legacy modes are used when
configOptions is absent. -/
example :
    (mergeAcpSessionConfigIntoMetadata {} {
      modes := some { availableModes := [⟨"ask", "Ask", none⟩], currentModeId := "ask" }
    }).operatingModes = some [⟨"ask", "Ask", none⟩] := by decide

/-- Finding a supported category inside the supported-select filter is the
same as finding it in the unfiltered list, because every select option of a
supported category passes the filter. -/
theorem findConfigOptionByCategory_filter (cos : List SessionConfigOption)
    (c : String) (hc : supportedCategories.contains c = true) :
    findConfigOptionByCategory (cos.filter isSupportedSelect) c
      = findConfigOptionByCategory cos c := by
  induction cos with
  | nil => rfl
  | cons o rest ih =>
    have key : (o.type == "select" && o.category == some c) = true →
        isSupportedSelect o = true := by
      intro h
      simp only [Bool.and_eq_true, beq_iff_eq] at h
      simp only [isSupportedSelect, h.1, h.2]
      simpa using hc
    unfold findConfigOptionByCategory at ih ⊢
    cases hsel : isSupportedSelect o with
    | true =>
      cases hp : (o.type == "select" && o.category == some c) with
      | true => simp [List.filter, List.find?, hsel, hp]
      | false => simp [List.filter, List.find?, hsel, hp, ih]
    | false =>
      have hp : (o.type == "select" && o.category == some c) = false := by
        cases hpv : (o.type == "select" && o.category == some c) with
        | false => rfl
        | true => simp [key hpv] at hsel
      simp [List.filter, List.find?, hsel, hp, ih]

/-- The merge equals the input record with each projection field either
overwritten by its snapshot-determined value or left alone; all other
fields are copied unchanged. -/
theorem merge_char (m : Metadata) (s : AcpSessionConfigSnapshot) :
    mergeAcpSessionConfigIntoMetadata m s =
      { m with
        operatingModes := (operatingModesWrite s).getD m.operatingModes,
        currentOperatingModeCode :=
          (currentOperatingModeCodeWrite s).getD m.currentOperatingModeCode,
        models := (modelsWrite s).getD m.models,
        currentModelCode := (currentModelCodeWrite s).getD m.currentModelCode,
        thoughtLevels := (thoughtLevelsWrite s).getD m.thoughtLevels,
        currentThoughtLevelCode :=
          (currentThoughtLevelCodeWrite s).getD m.currentThoughtLevelCode } := by
  rcases s with ⟨co, mo, ml, cmi⟩
  cases co with
  | none =>
    cases mo <;> cases ml <;> cases cmi <;>
      simp only [mergeAcpSessionConfigIntoMetadata, applyConfigCategory,
        operatingModesWrite, currentOperatingModeCodeWrite, modelsWrite,
        currentModelCodeWrite, thoughtLevelsWrite, currentThoughtLevelCodeWrite,
        Option.getD] <;>
      (try split) <;> first | rfl | simp_all
  | some cos =>
    cases hmode : findConfigOptionByCategory (cos.filter isSupportedSelect) "mode" <;>
      cases hmodel : findConfigOptionByCategory (cos.filter isSupportedSelect) "model" <;>
      cases hth : findConfigOptionByCategory (cos.filter isSupportedSelect) "thought_level" <;>
      cases mo <;> cases ml <;> cases cmi <;>
      simp only [mergeAcpSessionConfigIntoMetadata, applyConfigCategory,
        operatingModesWrite, currentOperatingModeCodeWrite, modelsWrite,
        currentModelCodeWrite, thoughtLevelsWrite, currentThoughtLevelCodeWrite,
        hmode, hmodel, hth, Option.isSome, Option.getD, Bool.false_eq_true,
        if_true, if_false, ite_true, ite_false] <;>
      (try split) <;> first | rfl | simp_all

/-- Option helper: a second getD through the same option is absorbed. -/
theorem optionGetD_absorb {α : Type} (o : Option α) (x : α) :
    o.getD (o.getD x) = o.getD x := by
  cases o <;> rfl

/-- C3: merging the same snapshot a second time is a fixed point:
mergeAcpSessionConfigIntoMetadata(mergeAcpSessionConfigIntoMetadata(m, s), s)
equals mergeAcpSessionConfigIntoMetadata(m, s).  Every field the merge
writes depends only on the snapshot, and every other field is copied, so
the second merge reproduces the first. -/
theorem C3_merge_idempotent (m : Metadata) (s : AcpSessionConfigSnapshot) :
    mergeAcpSessionConfigIntoMetadata (mergeAcpSessionConfigIntoMetadata m s) s
      = mergeAcpSessionConfigIntoMetadata m s := by
  rw [merge_char m s, merge_char]
  cases m
  simp [optionGetD_absorb]

/-- C10: the merge never touches fields of the metadata other than the six
projection fields (models, currentModelCode, operatingModes,
currentOperatingModeCode, thoughtLevels, currentThoughtLevelCode); all
other fields of the result equal those of the input record.  The
TypeScript function also never mutates its argument: it writes only to the
shallow copy made by the object spread, which the purity of this embedding
reflects. -/
theorem C10_merge_frame (m : Metadata) (s : AcpSessionConfigSnapshot) :
    (mergeAcpSessionConfigIntoMetadata m s).path = m.path ∧
    (mergeAcpSessionConfigIntoMetadata m s).host = m.host ∧
    (mergeAcpSessionConfigIntoMetadata m s).homeDir = m.homeDir ∧
    (mergeAcpSessionConfigIntoMetadata m s).happyHomeDir = m.happyHomeDir ∧
    (mergeAcpSessionConfigIntoMetadata m s).happyLibDir = m.happyLibDir ∧
    (mergeAcpSessionConfigIntoMetadata m s).happyToolsDir = m.happyToolsDir ∧
    (mergeAcpSessionConfigIntoMetadata m s).extra = m.extra := by
  rw [merge_char m s]
  exact ⟨rfl, rfl, rfl, rfl, rfl, rfl, rfl⟩

/-- Projection of the merge at operatingModes. -/
theorem merge_operatingModes (m : Metadata) (s : AcpSessionConfigSnapshot) :
    (mergeAcpSessionConfigIntoMetadata m s).operatingModes
      = (operatingModesWrite s).getD m.operatingModes := by
  rw [merge_char]

/-- Projection of the merge at currentOperatingModeCode. -/
theorem merge_currentOperatingModeCode (m : Metadata) (s : AcpSessionConfigSnapshot) :
    (mergeAcpSessionConfigIntoMetadata m s).currentOperatingModeCode
      = (currentOperatingModeCodeWrite s).getD m.currentOperatingModeCode := by
  rw [merge_char]

/-- Projection of the merge at models. -/
theorem merge_models (m : Metadata) (s : AcpSessionConfigSnapshot) :
    (mergeAcpSessionConfigIntoMetadata m s).models
      = (modelsWrite s).getD m.models := by
  rw [merge_char]

/-- Projection of the merge at currentModelCode. -/
theorem merge_currentModelCode (m : Metadata) (s : AcpSessionConfigSnapshot) :
    (mergeAcpSessionConfigIntoMetadata m s).currentModelCode
      = (currentModelCodeWrite s).getD m.currentModelCode := by
  rw [merge_char]

/-- Projection of the merge at thoughtLevels. -/
theorem merge_thoughtLevels (m : Metadata) (s : AcpSessionConfigSnapshot) :
    (mergeAcpSessionConfigIntoMetadata m s).thoughtLevels
      = (thoughtLevelsWrite s).getD m.thoughtLevels := by
  rw [merge_char]

/-- Projection of the merge at currentThoughtLevelCode. -/
theorem merge_currentThoughtLevelCode (m : Metadata) (s : AcpSessionConfigSnapshot) :
    (mergeAcpSessionConfigIntoMetadata m s).currentThoughtLevelCode
      = (currentThoughtLevelCodeWrite s).getD m.currentThoughtLevelCode := by
  rw [merge_char]

/-- C2 (amended): when configOptions carries a select option of category
mode (resp. model), the merged operatingModes and currentOperatingModeCode
(resp. models and currentModelCode) come from that selector, not from the
legacy modes (resp. models) state, regardless of the legacy state being
present; for the mode category this additionally requires that the
snapshot carries no bare nonempty currentModeId, which the source applies
as a final override of the current operating mode code. -/
theorem C2_configOptions_override (m : Metadata) (s : AcpSessionConfigSnapshot)
    (cos : List SessionConfigOption) (hco : s.configOptions = some cos) :
    (∀ modeOpt, findConfigOptionByCategory cos "mode" = some modeOpt →
      s.modes.isSome = true → jsTruthy s.currentModeId = false →
      (mergeAcpSessionConfigIntoMetadata m s).operatingModes
          = some (flattenConfigSelectOptions modeOpt.options) ∧
      (mergeAcpSessionConfigIntoMetadata m s).currentOperatingModeCode
          = some modeOpt.currentValue) ∧
    (∀ modelOpt, findConfigOptionByCategory cos "model" = some modelOpt →
      s.models.isSome = true →
      (mergeAcpSessionConfigIntoMetadata m s).models
          = some (flattenConfigSelectOptions modelOpt.options) ∧
      (mergeAcpSessionConfigIntoMetadata m s).currentModelCode
          = some modelOpt.currentValue) := by
  have hfmode := findConfigOptionByCategory_filter cos "mode" (by decide)
  have hfmodel := findConfigOptionByCategory_filter cos "model" (by decide)
  constructor
  · intro modeOpt hmode hmodes hcmi
    rw [hmode] at hfmode
    constructor
    · rw [merge_operatingModes]
      simp [operatingModesWrite, hco, hfmode]
    · rw [merge_currentOperatingModeCode]
      cases hv : s.currentModeId with
      | none => simp [currentOperatingModeCodeWrite, hco, hfmode, hv]
      | some v =>
        have hv0 : v = "" := by
          rw [hv] at hcmi
          simpa [jsTruthy] using hcmi
        simp [currentOperatingModeCodeWrite, hco, hfmode, hv, hv0]
  · intro modelOpt hmodel hmodels
    rw [hmodel] at hfmodel
    constructor
    · rw [merge_models]
      simp [modelsWrite, hco, hfmodel]
    · rw [merge_currentModelCode]
      simp [currentModelCodeWrite, hco, hfmodel]

/-- C2 counterexample: the snapshot has a mode selector in configOptions
and a legacy modes state, yet the merged currentOperatingModeCode is not
the selector currentValue: the bare currentModeId of the snapshot
overrides it last. -/
theorem C2_counterexample :
    cexC2Snap.configOptions = some [cexC2ModeSel] ∧
    findConfigOptionByCategory [cexC2ModeSel] "mode" = some cexC2ModeSel ∧
    cexC2Snap.modes.isSome = true ∧
    (mergeAcpSessionConfigIntoMetadata {} cexC2Snap).currentOperatingModeCode
      ≠ some cexC2ModeSel.currentValue := by
  refine ⟨rfl, by decide, rfl, ?_⟩
  decide

/-- Witness for the amended C2 at a concrete metadata and snapshot. -/
theorem C2_witness :
    (mergeAcpSessionConfigIntoMetadata {} witC2Snap).currentOperatingModeCode
        = some "code" ∧
    (mergeAcpSessionConfigIntoMetadata {} witC2Snap).currentModelCode
        = some "new-model" := by
  have h := C2_configOptions_override {} witC2Snap [witC2ModeSel, witC2ModelSel] rfl
  exact ⟨(h.1 witC2ModeSel (by decide) rfl (by decide)).2,
         (h.2 witC2ModelSel (by decide) rfl).2⟩

/-- C4 (amended): when the snapshot configOptions is present (an array)
and a category among mode, model and thought_level has no select entry of
that category there and no legacy fallback in the snapshot (and, for the
mode category, no bare nonempty currentModeId), the merged metadata does
not contain that category fields: both the list and the current code are
deleted, not reset to empty. -/
theorem C4_delete_semantics (m : Metadata) (s : AcpSessionConfigSnapshot)
    (cos : List SessionConfigOption) (hco : s.configOptions = some cos) :
    (findConfigOptionByCategory cos "model" = none → s.models = none →
      (mergeAcpSessionConfigIntoMetadata m s).models = none ∧
      (mergeAcpSessionConfigIntoMetadata m s).currentModelCode = none) ∧
    (findConfigOptionByCategory cos "mode" = none → s.modes = none →
      jsTruthy s.currentModeId = false →
      (mergeAcpSessionConfigIntoMetadata m s).operatingModes = none ∧
      (mergeAcpSessionConfigIntoMetadata m s).currentOperatingModeCode = none) ∧
    (findConfigOptionByCategory cos "thought_level" = none →
      (mergeAcpSessionConfigIntoMetadata m s).thoughtLevels = none ∧
      (mergeAcpSessionConfigIntoMetadata m s).currentThoughtLevelCode = none) := by
  have hfmode := findConfigOptionByCategory_filter cos "mode" (by decide)
  have hfmodel := findConfigOptionByCategory_filter cos "model" (by decide)
  have hfth := findConfigOptionByCategory_filter cos "thought_level" (by decide)
  refine ⟨?_, ?_, ?_⟩
  · intro hmodel hml
    rw [hmodel] at hfmodel
    constructor
    · rw [merge_models]
      simp [modelsWrite, hco, hfmodel, hml]
    · rw [merge_currentModelCode]
      simp [currentModelCodeWrite, hco, hfmodel, hml]
  · intro hmode hmo hcmi
    rw [hmode] at hfmode
    constructor
    · rw [merge_operatingModes]
      simp [operatingModesWrite, hco, hfmode, hmo]
    · rw [merge_currentOperatingModeCode]
      cases hv : s.currentModeId with
      | none => simp [currentOperatingModeCodeWrite, hco, hfmode, hmo, hv]
      | some v =>
        have hv0 : v = "" := by
          rw [hv] at hcmi
          simpa [jsTruthy] using hcmi
        simp [currentOperatingModeCodeWrite, hco, hfmode, hmo, hv, hv0]
  · intro hth
    rw [hth] at hfth
    constructor
    · rw [merge_thoughtLevels]
      simp [thoughtLevelsWrite, hco, hfth]
    · rw [merge_currentThoughtLevelCode]
      simp [currentThoughtLevelCodeWrite, hco, hfth]

/-- C4 counterexample: with a snapshot that has no configOptions array at
all (hence no model select entry) and no legacy models, the merged
metadata still contains the model fields: the source only deletes when
configOptions is present. -/
theorem C4_counterexample :
    (AcpSessionConfigSnapshot.mk none none none none).configOptions = none ∧
    (AcpSessionConfigSnapshot.mk none none none none).models = none ∧
    (mergeAcpSessionConfigIntoMetadata cexC4Metadata
        (AcpSessionConfigSnapshot.mk none none none none)).models
      = some [⟨"m1", "Model 1", none⟩] := by
  refine ⟨rfl, rfl, ?_⟩
  decide

/-- Witness for the amended C4 at a concrete metadata and snapshot with an
empty configOptions array. -/
theorem C4_witness :
    (mergeAcpSessionConfigIntoMetadata cexC4Metadata
        { configOptions := some [] }).models = none ∧
    (mergeAcpSessionConfigIntoMetadata cexC4Metadata
        { configOptions := some [] }).currentModelCode = none := by
  exact (C4_delete_semantics cexC4Metadata { configOptions := some [] } []
    rfl).1 rfl rfl

/-! Theorems for the backend claims. -/

/-- Delay-shape helper: the empty delay list satisfies the backoff
formula. -/
theorem delaysSpec_nil :
    ∀ k d : Nat, (k, d) ∈ ([] : List (Nat × Nat)) → d = min (1000 * 2 ^ (k - 1)) 5000 := by
  simp

/-- Delay-shape helper: the one-retry delay list satisfies the backoff
formula. -/
theorem delaysSpec_one :
    ∀ k d : Nat, (k, d) ∈ [(1, 1000)] → d = min (1000 * 2 ^ (k - 1)) 5000 := by
  intro k d h
  simp only [List.mem_singleton, Prod.mk.injEq] at h
  rcases h with ⟨rfl, rfl⟩
  decide

/-- Delay-shape helper: the two-retry delay list satisfies the backoff
formula. -/
theorem delaysSpec_two :
    ∀ k d : Nat, (k, d) ∈ [(1, 1000), (2, 2000)] → d = min (1000 * 2 ^ (k - 1)) 5000 := by
  intro k d h
  simp only [List.mem_cons, List.mem_singleton, Prod.mk.injEq, List.not_mem_nil, or_false] at h
  rcases h with ⟨rfl, rfl⟩ | ⟨rfl, rfl⟩ <;> decide

/-- C6: with RETRY_CONFIG, initialize and newSession are attempted at most
3 times; every delay inserted after the k-th failed attempt (before retry
k+1) equals min(1000 * 2^(k-1), 5000) ms; and the delays sum to at most
1+2+4 seconds.  (Because a delay only precedes a retry, only the 1 s and
2 s delays can actually occur, so the bound holds with room.) -/
theorem C6_handshake_retry {ε α : Type} (op : Nat → Except ε α) (shouldRetry : ε → Bool) :
    (withRetry op RETRY_CONFIG_maxAttempts RETRY_CONFIG_baseDelayMs RETRY_CONFIG_maxDelayMs
        shouldRetry).attemptsUsed ≤ 3 ∧
    (∀ k d, (k, d) ∈ (withRetry op RETRY_CONFIG_maxAttempts RETRY_CONFIG_baseDelayMs
        RETRY_CONFIG_maxDelayMs shouldRetry).delays →
      d = min (1000 * 2 ^ (k - 1)) 5000) ∧
    ((withRetry op RETRY_CONFIG_maxAttempts RETRY_CONFIG_baseDelayMs RETRY_CONFIG_maxDelayMs
        shouldRetry).delays.map Prod.snd).sum ≤ 1000 + 2000 + 4000 := by
  unfold withRetry RETRY_CONFIG_maxAttempts RETRY_CONFIG_baseDelayMs RETRY_CONFIG_maxDelayMs
  cases h1 : op 1 with
  | ok v =>
    have ht : withRetryGo op 3 1000 5000 shouldRetry 1 3 none [] = ⟨.ok v, 1, []⟩ := by
      simp [withRetryGo, h1]
    rw [ht]
    exact ⟨by norm_num, delaysSpec_nil, by norm_num⟩
  | error e1 =>
    cases hs1 : shouldRetry e1 with
    | false =>
      have ht : withRetryGo op 3 1000 5000 shouldRetry 1 3 none []
          = ⟨.error (some e1), 1, []⟩ := by
        simp [withRetryGo, h1, hs1]
      rw [ht]
      exact ⟨by norm_num, delaysSpec_nil, by norm_num⟩
    | true =>
      cases h2 : op 2 with
      | ok v =>
        have ht : withRetryGo op 3 1000 5000 shouldRetry 1 3 none []
            = ⟨.ok v, 2, [(1, 1000)]⟩ := by
          simp [withRetryGo, h1, hs1, h2, retryDelayMs]
        rw [ht]
        exact ⟨by norm_num, delaysSpec_one, by norm_num⟩
      | error e2 =>
        cases hs2 : shouldRetry e2 with
        | false =>
          have ht : withRetryGo op 3 1000 5000 shouldRetry 1 3 none []
              = ⟨.error (some e2), 2, [(1, 1000)]⟩ := by
            simp [withRetryGo, h1, hs1, h2, hs2, retryDelayMs]
          rw [ht]
          exact ⟨by norm_num, delaysSpec_one, by norm_num⟩
        | true =>
          cases h3 : op 3 with
          | ok v =>
            have ht : withRetryGo op 3 1000 5000 shouldRetry 1 3 none []
                = ⟨.ok v, 3, [(1, 1000), (2, 2000)]⟩ := by
              simp [withRetryGo, h1, hs1, h2, hs2, h3, retryDelayMs]
            rw [ht]
            exact ⟨by norm_num, delaysSpec_two, by norm_num⟩
          | error e3 =>
            have ht : withRetryGo op 3 1000 5000 shouldRetry 1 3 none []
                = ⟨.error (some e3), 3, [(1, 1000), (2, 2000)]⟩ := by
              simp [withRetryGo, h1, hs1, h2, hs2, h3, retryDelayMs]
            rw [ht]
            exact ⟨by norm_num, delaysSpec_two, by norm_num⟩

/-- Witness for C6 at a concrete always-failing operation. -/
theorem C6_witness :
    (withRetry alwaysFailOp RETRY_CONFIG_maxAttempts RETRY_CONFIG_baseDelayMs
        RETRY_CONFIG_maxDelayMs (fun _ => true)).attemptsUsed ≤ 3 ∧
    (∀ k d, (k, d) ∈ (withRetry alwaysFailOp RETRY_CONFIG_maxAttempts RETRY_CONFIG_baseDelayMs
        RETRY_CONFIG_maxDelayMs (fun _ => true)).delays →
      d = min (1000 * 2 ^ (k - 1)) 5000) ∧
    ((withRetry alwaysFailOp RETRY_CONFIG_maxAttempts RETRY_CONFIG_baseDelayMs
        RETRY_CONFIG_maxDelayMs (fun _ => true)).delays.map Prod.snd).sum
      ≤ 1000 + 2000 + 4000 :=
  C6_handshake_retry alwaysFailOp (fun _ => true)

/-- C7: an attempt that fails with a non-retryable error (errno ENOENT,
EACCES or EPIPE, or the out-of-band spawn/exit failure) stops the retry
loop at that attempt with no further attempt and no added delay; the
failed startSession emits exactly one status error carrying the error
message (from the process error handler or from the catch block, never
both) and rethrows the error. -/
theorem C7_nonretryable_stops {α : Type} (op : Nat → Except AcpError α)
    (attempt fuel : Nat) (lastErr : Option AcpError) (acc : List (Nat × Nat))
    (e : AcpError) (viaProcessErrorEvent : Bool)
    (hop : op attempt = .error e) (hnr : isNonRetryableStartupError e = true) :
    withRetryGo op RETRY_CONFIG_maxAttempts RETRY_CONFIG_baseDelayMs RETRY_CONFIG_maxDelayMs
        (fun err => !isNonRetryableStartupError err) attempt (fuel + 1) lastErr acc
      = ⟨.error (some e), attempt, acc.reverse⟩ ∧
    startSessionFailureEmits viaProcessErrorEvent e
      = [.status "error" (some e.message)] ∧
    (startSessionCatch viaProcessErrorEvent e).2 = .error e := by
  refine ⟨?_, ?_, rfl⟩
  · simp [withRetryGo, hop, hnr]
  · cases viaProcessErrorEvent <;>
      simp [startSessionFailureEmits, processErrorEventEmits, startSessionCatch]

/-- Witness for C7 at a concrete ENOENT failure on the first attempt. -/
theorem C7_witness :
    withRetryGo (fun _ => (.error cexEnoent : Except AcpError Unit)) RETRY_CONFIG_maxAttempts
        RETRY_CONFIG_baseDelayMs RETRY_CONFIG_maxDelayMs
        (fun err => !isNonRetryableStartupError err) 1 3 none []
      = ⟨.error (some cexEnoent), 1, []⟩ ∧
    startSessionFailureEmits false cexEnoent
      = [.status "error" (some "spawn gemini ENOENT")] ∧
    (startSessionCatch false cexEnoent).2 = .error cexEnoent :=
  C7_nonretryable_stops (fun _ => (.error cexEnoent : Except AcpError Unit)) 1 2 none []
    cexEnoent false rfl rfl

/-- C8: for an agent_message_chunk whose content.text is a string t, if t
matches the bold-header regex the handler emits exactly one streaming
thinking event with payload text t and changes nothing else; otherwise it
emits exactly one model-output message with textDelta t and re-arms the
idle timer with getIdleTimeout (default 500 ms), leaving the active
tool-call set unchanged, and when that timer later expires an idle status
is emitted if and only if the active tool-call set is empty at expiry. -/
theorem C8_agent_message_chunk (update : SessionUpdate) (tr : TransportHandler)
    (s : HandlerState) (o : ContentObj) (t : String)
    (hc : update.content = some (.obj o)) (ht : o.text = some t) :
    (isThinkingChunk t = true →
      handleAgentMessageChunk update tr s
        = (emitMsg s (.event "thinking" (.thinkingP { text := some t, streaming := true })),
           { handled := true })) ∧
    (isThinkingChunk t = false →
      (handleAgentMessageChunk update tr s).1.emitted
          = s.emitted ++ [.modelOutput (some t)] ∧
      (handleAgentMessageChunk update tr s).1.idleTimerMs
          = some (tr.getIdleTimeout.getD DEFAULT_IDLE_TIMEOUT_MS) ∧
      (handleAgentMessageChunk update tr s).1.activeToolCalls = s.activeToolCalls ∧
      (handleAgentMessageChunk update tr s).2 = { handled := true } ∧
      (fireIdleTimer (handleAgentMessageChunk update tr s).1).emitted
        = (handleAgentMessageChunk update tr s).1.emitted
            ++ (if s.activeToolCalls.isEmpty then [.status "idle" none] else [])) := by
  constructor
  · intro hthink
    simp [handleAgentMessageChunk, hc, ht, hthink]
  · intro hplain
    have hred :
        handleAgentMessageChunk update tr s
          = ({ emitMsg s (.modelOutput (some t)) with
                idleTimerMs := some (tr.getIdleTimeout.getD DEFAULT_IDLE_TIMEOUT_MS) },
             { handled := true }) := by
      simp [handleAgentMessageChunk, hc, ht, hplain]
    rw [hred]
    refine ⟨rfl, rfl, rfl, rfl, ?_⟩
    cases hac : s.activeToolCalls.isEmpty <;>
      simp [fireIdleTimer, emitMsg, hac]

/-- Witness for C8: a plain chunk emits one model-output, arms the default
500 ms idle timer, and its expiry on an empty active set emits idle. -/
theorem C8_witness :
    (handleAgentMessageChunk witC8Update {} {}).1.emitted
        = [.modelOutput (some "hello")] ∧
    (handleAgentMessageChunk witC8Update {} {}).1.idleTimerMs = some 500 ∧
    (fireIdleTimer (handleAgentMessageChunk witC8Update {} {}).1).emitted
        = [.modelOutput (some "hello"), .status "idle" none] := by
  have h := (C8_agent_message_chunk witC8Update {} {} { text := some "hello" } "hello"
    rfl rfl).2 (by decide)
  refine ⟨h.1, h.2.1, ?_⟩
  rw [h.2.2.2.2, h.1]
  rfl

/-- C9 counterexample: a tool_call whose status is present (the empty
string) and is neither in_progress nor pending is nevertheless treated as
in progress by the source (the guard tests JavaScript truthiness, not
presence): handleToolCall starts tracking, adds the id to the active set
and emits messages. -/
theorem C9_counterexample :
    cexC9Update.status = some "" ∧
    cexC9Update.status ≠ some "in_progress" ∧
    cexC9Update.status ≠ some "pending" ∧
    (handleToolCall cexC9Update {} {}).1.activeToolCalls = ["t1"] ∧
    (handleToolCall cexC9Update {} {}).1.emitted ≠ [] ∧
    (handleToolCall cexC9Update {} {}).2.handled = true := by
  refine ⟨rfl, by decide, by decide, ?_, ?_, ?_⟩ <;> decide

/-- C9 (amended): for a tool_call whose status field is present, nonempty,
and neither in_progress nor pending (for example completed, failed or
cancelled), handleToolCall performs no action: the state (active set,
start times, timeouts, name map, idle timer, emitted log) is returned
unchanged and the result is handled = false.  (A present-but-empty status
string is falsy in JavaScript and is treated as in progress instead, which
is what the counterexample exhibits.) -/
theorem C9_terminal_status_ignored (update : SessionUpdate) (tr : TransportHandler)
    (s : HandlerState) (st : String)
    (hst : update.status = some st) (h0 : st ≠ "")
    (h1 : st ≠ "in_progress") (h2 : st ≠ "pending") :
    handleToolCall update tr s = (s, { handled := false }) := by
  simp [handleToolCall, hst, jsTruthy, h0, h1, h2]

/-- Witness for the amended C9: a completed tool_call update is ignored. -/
theorem C9_witness :
    handleToolCall
        { sessionUpdate := some "tool_call", toolCallId := some "t1",
          status := some "completed", kind := some "Bash" } {} {}
      = ({}, { handled := false }) :=
  C9_terminal_status_ignored
    { sessionUpdate := some "tool_call", toolCallId := some "t1",
      status := some "completed", kind := some "Bash" } {} {} "completed"
    rfl (by decide) (by decide) (by decide)

/-- C5 counterexample: although the options include one with optionId
proceed_always and the handler returns approved_for_session, the RPC
reply optionId is not proceed_always: the source picks the first option
whose optionId is proceed_always or whose lowercased name contains
"always", and here an earlier option matches by name. -/
theorem C5_counterexample :
    (cexC5Params.options.any fun o => o.optionId == some "proceed_always") = true ∧
    (requestPermission cexC5Params "fresh-id"
        (some (.ok .approved_for_session))).optionId ≠ "proceed_always" := by
  constructor
  · decide
  · decide

/-- C5 (amended): for an inbound requestPermission whose toolCall.id is a
nonempty t, with a configured handler returning approved_for_session, the
reply is selected with the optionId of the FIRST option whose optionId is
proceed_always or whose lowercased name contains "always" (its optionId,
or proceed_always when that optionId is falsy); a permission-request
agent message with id t (permissionId = toolCallId = t) is emitted first,
and a synthetic tool-result with callId t and result status approved,
decision approved_for_session is emitted after the handler resolves. -/
theorem C5_permission_flow (params : RequestPermissionParams) (freshId : String)
    (tc : PermissionToolCallInfo) (t : String) (aOpt : PermissionOptionInfo)
    (htc : params.toolCall = some tc) (hid : tc.id = some t) (ht : t ≠ "")
    (hfind : params.options.find? isProceedAlwaysOpt = some aOpt) :
    (requestPermission params freshId (some (.ok .approved_for_session))).optionId
        = jsStrOr aOpt.optionId "proceed_always" ∧
    (requestPermission params freshId (some (.ok .approved_for_session))).emitted
        = [ .permissionRequest t (permToolName params)
              { permissionId := t, toolCallId := t, toolName := permToolName params,
                input := permInput params, options := params.options },
            .toolResult t (permToolName params)
              (.permDecision "approved" "approved_for_session") ] := by
  have hcid : permToolCallId params freshId = t := by
    simp [permToolCallId, htc, hid, jsStrOr, jsTruthy, ht]
  constructor
  · simp [requestPermission, hfind, decisionStr]
  · simp [requestPermission, hcid, hfind, decisionStr]

/-- Witness for the amended C5 at the spec's scenario: the reply optionId
is proceed_always, the permission request carries id t1, and the
synthetic tool-result carries callId t1 with the session approval. -/
theorem C5_witness :
    (requestPermission witC5Params "fresh-id"
        (some (.ok .approved_for_session))).optionId = "proceed_always" ∧
    (requestPermission witC5Params "fresh-id"
        (some (.ok .approved_for_session))).emitted
      = [ .permissionRequest "t1" "Bash"
            { permissionId := "t1", toolCallId := "t1", toolName := "Bash",
              input := {}, options := witC5Params.options },
          .toolResult "t1" "Bash"
            (.permDecision "approved" "approved_for_session") ] := by
  have h := C5_permission_flow witC5Params "fresh-id"
    { id := some "t1", kind := some "Bash" } "t1"
    { optionId := some "proceed_always", name := some "Allow always" }
    rfl rfl (by decide) (by decide)
  exact ⟨h.1, h.2⟩

/-- The empty segment. -/
theorem emitSeg_nil (s : AcpSessionManager) : EmitSeg s s [] :=
  ⟨Nat.le_refl _, List.Pairwise.nil, by simp⟩

/-- Emitting one envelope is a valid segment, stated from any start state
with the same time counter (the entry points decorate the state with
buffer, map and turn changes that leave the counter untouched). -/
theorem emitSeg_emit_from (s0 s1 : AcpSessionManager) (turn : Option Nat) (ev : Ev)
    (now : Nat) (h : s0.timeCounter = s1.timeCounter) :
    EmitSeg s0 (emitEnvelope s1 turn ev now).1 [(emitEnvelope s1 turn ev now).2] := by
  refine ⟨?_, List.pairwise_singleton _ _, ?_⟩
  · simp only [emitEnvelope, h]
    omega
  · intro e he
    simp only [List.mem_singleton] at he
    subst he
    simp only [emitEnvelope, h]
    constructor <;> omega

/-- Emitting one envelope is a valid segment. -/
theorem emitSeg_emit (s : AcpSessionManager) (turn : Option Nat) (ev : Ev) (now : Nat) :
    EmitSeg s (emitEnvelope s turn ev now).1 [(emitEnvelope s turn ev now).2] :=
  emitSeg_emit_from s s turn ev now rfl

/-- Segments compose. -/
theorem emitSeg_comp {s t u : AcpSessionManager} {es1 es2 : List Envelope}
    (h1 : EmitSeg s t es1) (h2 : EmitSeg t u es2) : EmitSeg s u (es1 ++ es2) := by
  obtain ⟨hle1, hp1, hb1⟩ := h1
  obtain ⟨hle2, hp2, hb2⟩ := h2
  refine ⟨Nat.le_trans hle1 hle2, ?_, ?_⟩
  · rw [List.pairwise_append]
    refine ⟨hp1, hp2, ?_⟩
    intro a ha b hb
    exact Nat.lt_of_le_of_lt (hb1 a ha).2 (hb2 b hb).1
  · intro e he
    rcases List.mem_append.mp he with h | h
    · exact ⟨(hb1 e h).1, Nat.le_trans (hb1 e h).2 hle2⟩
    · exact ⟨Nat.lt_of_le_of_lt hle1 (hb2 e h).1, (hb2 e h).2⟩

/-- Flushing pending text is a valid segment. -/
theorem emitSeg_flushPendingText (s : AcpSessionManager) (now : Nat) :
    EmitSeg s (flushPendingText s now).1 (flushPendingText s now).2 := by
  unfold flushPendingText
  split
  · exact emitSeg_nil s
  · exact emitSeg_emit { s with pendingText := "" } s.currentTurnId
      (.text s.pendingText false) now

/-- Flushing pending thinking is a valid segment. -/
theorem emitSeg_flushPendingThinking (s : AcpSessionManager) (now : Nat) :
    EmitSeg s (flushPendingThinking s now).1 (flushPendingThinking s now).2 := by
  unfold flushPendingThinking
  split
  · exact emitSeg_nil s
  · exact emitSeg_emit { s with pendingThinking := "" } s.currentTurnId
      (.text s.pendingThinking true) now

/-- Flushing both buffers is a valid segment. -/
theorem emitSeg_flushPendings (s : AcpSessionManager) (now : Nat) :
    EmitSeg s (flushPendings s now).1 (flushPendings s now).2 :=
  emitSeg_comp (emitSeg_flushPendingText s now)
    (emitSeg_flushPendingThinking (flushPendingText s now).1 now)

/-- startTurn is a valid segment. -/
theorem emitSeg_startTurn (s : AcpSessionManager) (now : Nat) :
    EmitSeg s (startTurn s now).1 (startTurn s now).2 := by
  unfold startTurn
  cases h : s.currentTurnId with
  | some turnId => exact emitSeg_nil s
  | none =>
    exact emitSeg_emit { (takeFreshId s).1 with currentTurnId := some (takeFreshId s).2 }
      (some (takeFreshId s).2) .turnStart now

/-- endTurn is a valid segment. -/
theorem emitSeg_endTurn (s : AcpSessionManager) (status : TurnStatus) (now : Nat) :
    EmitSeg s (endTurn s status now).1 (endTurn s status now).2 := by
  simp only [endTurn]
  cases h : (flushPendings s now).1.currentTurnId with
  | some turnId =>
    simp only [h]
    exact emitSeg_comp (emitSeg_flushPendings s now) (emitSeg_emit_from _ _ _ _ now rfl)
  | none =>
    simp only [h]
    exact emitSeg_flushPendings s now

/-- mapMessage is a valid segment for every message. -/
theorem emitSeg_mapMessage (s : AcpSessionManager) (msg : AgentMessage) (now : Nat) :
    EmitSeg s (mapMessage s msg now).1 (mapMessage s msg now).2 := by
  cases msg with
  | status st d => exact emitSeg_nil s
  | permissionRequest i r p => exact emitSeg_nil s
  | permissionResponse i a => exact emitSeg_nil s
  | tokenCount t => exact emitSeg_nil s
  | fsEdit => exact emitSeg_nil s
  | terminalOutput => exact emitSeg_nil s
  | modelOutput textDelta =>
    cases textDelta with
    | none => exact emitSeg_nil s
    | some t =>
      simp only [mapMessage]
      split
      · exact emitSeg_nil s
      · split
        · exact emitSeg_flushPendingThinking s now
        · exact emitSeg_nil s
  | event name payload =>
    simp only [mapMessage]
    repeat' split
    all_goals
      first
        | exact emitSeg_nil s
        | exact emitSeg_flushPendingText s now
        | exact emitSeg_flushPendingThinking s now
        | exact emitSeg_comp (emitSeg_flushPendings s now) (emitSeg_emit_from _ _ _ _ now rfl)
  | toolCall callId toolName args =>
    simp only [mapMessage]
    exact emitSeg_comp (emitSeg_flushPendings s now) (emitSeg_emit_from _ _ _ _ now rfl)
  | toolResult callId toolName result =>
    simp only [mapMessage]
    cases h : s.callIdMap.lookup callId with
    | some ourCallId =>
      simp only [h]
      exact emitSeg_emit s s.currentTurnId (.toolCallEnd ourCallId) now
    | none =>
      simp only [h]
      exact emitSeg_emit_from _ _ _ _ now rfl

/-- Every single call is a valid segment. -/
theorem emitSeg_applyOp (s : AcpSessionManager) (op : SMOp) :
    EmitSeg s (applyOp s op).1 (applyOp s op).2 := by
  cases op with
  | startOp now => exact emitSeg_startTurn s now
  | endOp status now => exact emitSeg_endTurn s status now
  | mapOp msg now => exact emitSeg_mapMessage s msg now

/-- Every run of calls is a valid segment. -/
theorem emitSeg_runOps (s : AcpSessionManager) (ops : List SMOp) :
    EmitSeg s (runOps s ops).1 (runOps s ops).2 := by
  induction ops generalizing s with
  | nil => exact emitSeg_nil s
  | cons op rest ih =>
    exact emitSeg_comp (emitSeg_applyOp s op) (ih (applyOp s op).1)

/-- C1: across any sequence of startTurn, endTurn and mapMessage calls on
one session manager, the times of the emitted envelopes, taken in
emission order over the whole sequence, are strictly increasing. -/
theorem C1_time_strictly_increasing (ops : List SMOp) :
    List.Pairwise (fun a b => a.time < b.time) (runOps {} ops).2 :=
  (emitSeg_runOps {} ops).2.1

/-- Sanity check mirroring spec scenario 1: accumulated model output is
flushed as one text envelope at endTurn. -/
example :
    ((runOps {} [.startOp 0, .mapOp (.modelOutput (some "hel")) 0,
      .mapOp (.modelOutput (some "lo")) 0, .endOp .completed 0]).2.map (fun e => e.ev))
      = [.turnStart, .text "hello" false, .turnEnd .completed] := by
  decide

/-- Sanity check mirroring spec scenario 2: streaming thinking flushes
when model output arrives, the remaining text flushes at endTurn. -/
example :
    ((runOps {} [.startOp 0,
      .mapOp (.event "thinking" (.thinkingP { text := some "A", streaming := true })) 0,
      .mapOp (.event "thinking" (.thinkingP { text := some "B", streaming := true })) 0,
      .mapOp (.modelOutput (some "x")) 0,
      .endOp .completed 0]).2.map (fun e => e.ev))
      = [.turnStart, .text "AB" true, .text "x" false, .turnEnd .completed] := by
  decide

/-- Sanity check mirroring spec scenario 4: an orphan tool result still
yields a tool-call-end with a fresh call id. -/
example :
    ((runOps {} [.startOp 0,
      .mapOp (.toolResult "unknown" "ReadFile" (.contentR none)) 0,
      .endOp .completed 0]).2.map (fun e => e.ev))
      = [.turnStart, .toolCallEnd 2, .turnEnd .completed] := by
  decide

/-- Sanity check for the thinking regex: a bold header is thinking. -/
example : isThinkingChunk "**Planning the fix**\nnext step" = true := by decide

/-- Sanity check for the thinking regex: plain text is not thinking. -/
example : isThinkingChunk "hello **world**" = false := by decide

/-- Sanity check for the thinking regex: the character class requires at
least one non-star character between the star pairs. -/
example : isThinkingChunk "****\n" = false := by decide

end Happy

